import Mathlib

/-!
Shallow embedding of `src/main.py`, a minimal in-memory inventory service:
purchases and sales fold into per-product state (quantity, weighted-average
unit cost, minimum stock), a derived status label, and a sorted listing.
Python floats are modelled as exact rationals (`ℚ`), Python ints as `Int`,
the process-wide dict `_inventory` as an association list threaded
explicitly through each operation, and `raise HTTPException` as an
`Except` result paired with the store state at the moment of the raise.
-/

/-- Python ASCII whitespace, the characters removed by `str.strip()`. -/
def pyIsSpace (c : Char) : Bool :=
  decide (c.toNat = 32 ∨ (9 ≤ c.toNat ∧ c.toNat ≤ 13))

/-- List-level body of Python `str.strip()`: drop leading and trailing whitespace. -/
def stripList (l : List Char) : List Char :=
  ((l.dropWhile pyIsSpace).reverse.dropWhile pyIsSpace).reverse

/-- Models Python `str.strip()`. -/
def pyStrip (s : String) : String :=
  ⟨stripList s.data⟩

/-- Models Python `str.lower()` (ASCII letters, as in the repository's data). -/
def pyLower (s : String) : String :=
  ⟨s.data.map Char.toLower⟩

/-- Models Python `product.strip().lower()`: the normalized product key of `main.py`. -/
def pyNorm (s : String) : String :=
  pyLower (pyStrip s)

/-- Walks the characters as Python `str.title()` does: a letter is uppercased
when the previous character is not a letter, lowercased otherwise. -/
def titleAux : Bool → List Char → List Char
  | _, [] => []
  | prev, c :: cs => (if prev then c.toLower else c.toUpper) :: titleAux c.isAlpha cs

/-- Models Python `str.title()` (ASCII), used by the listing endpoint. -/
def pyTitle (s : String) : String :=
  ⟨titleAux false s.data⟩

/-- `InventoryItem` of `main.py` (lines 10-13): all fields default to zero. -/
structure InventoryItem where
  quantity : Int := 0
  unit_cost : ℚ := 0
  min_stock : Int := 0
deriving DecidableEq

/-- Derived `status` property of `InventoryItem` (`main.py` lines 15-23). -/
def InventoryItem.status (it : InventoryItem) : String :=
  if it.min_stock ≤ 0 then "OK"
  else if it.quantity ≤ 0 then "Bajo"
  else if it.quantity ≤ it.min_stock then "Atento"
  else "OK"

/-- The two move kinds of the `type` field of `MovePayload`. -/
inductive MoveType where
  | sale
  | purchase
deriving DecidableEq

/-- `MovePayload` of `main.py` (lines 26-41). -/
structure MovePayload where
  type : MoveType
  product : String
  quantity : Int
  total_cost : Option ℚ := none
  min_stock : Option Int := none
deriving DecidableEq

/-- Pydantic field validation on `MovePayload`: `product` has `min_length=1`,
`quantity` is `gt=0`, `total_cost` is `gt=0` when present, `min_stock` is
`ge=0` when present. -/
def MovePayload.Valid (p : MovePayload) : Prop :=
  1 ≤ p.product.length ∧ 0 < p.quantity ∧
    (match p.total_cost with | some c => 0 < c | none => True) ∧
    (match p.min_stock with | some m => 0 ≤ m | none => True)

/-- `InventoryResponse` of `main.py` (lines 44-49). -/
structure InventoryResponse where
  product : String
  quantity : Int
  unit_cost : ℚ
  min_stock : Int
  status : String
deriving DecidableEq

/-- An `HTTPException` raised by `main.py`: status code and detail message. -/
structure HTTPError where
  status_code : Nat
  detail : String
deriving DecidableEq

/-- The freshly zeroed item installed by `_get_or_create_item` for a new key. -/
def freshItem : InventoryItem := {}

/-- The process-wide dict `_inventory`, as an association list from
normalized product key to item state (insertion order preserved). -/
abbrev Store := List (String × InventoryItem)

/-- Models Python `round(x, 2)`: round to two decimals, ties to even. -/
def round2 (x : ℚ) : ℚ :=
  let y := x * 100
  let f : Int := ⌊y⌋
  let n : Int :=
    if y - f < 1/2 then f
    else if 1/2 < y - f then f + 1
    else if f % 2 = 0 then f else f + 1
  (n : ℚ) / 100

/-- `_get_or_create_item` of `main.py` (lines 65-69): normalize the key,
insert a zeroed item if the key is absent, return the item under the key. -/
def _get_or_create_item (inv : Store) (product : String) : Store × InventoryItem :=
  let product_key := pyNorm product
  match inv.lookup product_key with
  | some item => (inv, item)
  | none => (inv ++ [(product_key, {})], {})

/-- In-place mutation of the item object held under `key` in the dict. -/
def updateItem (inv : Store) (key : String) (item : InventoryItem) : Store :=
  inv.map fun kv => if kv.1 = key then (kv.1, item) else kv

/-- `_to_response` of `main.py` (lines 72-79): the response view rounds
`unit_cost` to two decimals and derives `status`. -/
def _to_response (product : String) (item : InventoryItem) : InventoryResponse :=
  { product := product
    quantity := item.quantity
    unit_cost := round2 item.unit_cost
    min_stock := item.min_stock
    status := item.status }

/-- `register_move` of `main.py` (lines 82-113, `POST /api/move`): returns
the store as left by the handler together with the response or the raised
`HTTPException`. -/
def register_move (inv : Store) (payload : MovePayload) :
    Store × Except HTTPError InventoryResponse :=
  let product_key := pyNorm payload.product
  if product_key = "" then
    (inv, .error { status_code := 400, detail := "El producto es obligatorio." })
  else
    let res := _get_or_create_item inv product_key
    let inv1 := res.1
    let item := res.2
    if payload.type = MoveType.purchase then
      match payload.total_cost with
      | none =>
          (inv1, .error { status_code := 422, detail := "El total gastado es obligatorio." })
      | some total_cost =>
          let unit_cost := total_cost / (payload.quantity : ℚ)
          let total_units := item.quantity + payload.quantity
          let item1 :=
            if total_units = 0 then { item with unit_cost := unit_cost }
            else
              let existing_value := (item.quantity : ℚ) * item.unit_cost
              let new_value := (payload.quantity : ℚ) * unit_cost
              { item with unit_cost := (existing_value + new_value) / (total_units : ℚ) }
          let item2 := { item1 with quantity := item.quantity + payload.quantity }
          let item3 :=
            match payload.min_stock with
            | some m => { item2 with min_stock := m }
            | none => item2
          (updateItem inv1 (pyNorm product_key) item3,
            .ok (_to_response (pyStrip payload.product) item3))
    else
      if item.quantity < payload.quantity then
        (inv1,
          .error { status_code := 400, detail := "No hay suficiente stock para completar la venta." })
      else
        let item1 := { item with quantity := item.quantity - payload.quantity }
        (updateItem inv1 (pyNorm product_key) item1,
          .ok (_to_response (pyStrip payload.product) item1))

/-- `get_inventory` of `main.py` (lines 116-120, `GET /api/inventory`): sort
the entries by key and render each with the title-cased key. -/
def get_inventory (inv : Store) : List InventoryResponse :=
  (inv.mergeSort fun a b => decide (a.1 ≤ b.1)).map fun kv =>
    _to_response (pyTitle kv.1) kv.2

/-- `reset_inventory` of `main.py` (lines 123-126, `POST /api/reset`). -/
def reset_inventory : Store := []

/-- Effective item state under a key: the stored item, or a zeroed one if
the key is absent (the value `_get_or_create_item` would first install). -/
def itemView (inv : Store) (key : String) : InventoryItem :=
  (inv.lookup key).getD {}

/-- Fold a sequence of moves through `register_move`, keeping the store. -/
def applyMoves (inv : Store) (ms : List MovePayload) : Store :=
  ms.foldl (fun s p => (register_move s p).1) inv

/-- Purchase payload with a given product, quantity and total cost. -/
def purchasePayload (product : String) (q : Int) (c : ℚ) : MovePayload :=
  { type := MoveType.purchase, product := product, quantity := q, total_cost := some c }

/-- Sale payload with a given product and quantity. -/
def salePayload (product : String) (q : Int) : MovePayload :=
  { type := MoveType.sale, product := product, quantity := q }

/-- Closed form of the item state produced by the purchase branch of
`register_move` (quantity `q`, total cost `tc`, optional new minimum `ms`),
as a function of the previous item state. -/
def purchasedItem (item : InventoryItem) (q : Int) (tc : ℚ) (ms : Option Int) : InventoryItem :=
  { quantity := item.quantity + q
    unit_cost :=
      if item.quantity + q = 0 then tc / (q : ℚ)
      else ((item.quantity : ℚ) * item.unit_cost + (q : ℚ) * (tc / (q : ℚ)))
        / (((item.quantity + q : Int)) : ℚ)
    min_stock := ms.getD item.min_stock }

/-- Closed form of the item state produced by a successful sale branch. -/
def soldItem (item : InventoryItem) (q : Int) : InventoryItem :=
  { item with quantity := item.quantity - q }

/-! Auxiliary facts about the embedded Python string operations. -/

theorem toLower_toLower (c : Char) : c.toLower.toLower = c.toLower := by
  unfold Char.toLower
  by_cases h : c.toNat ≥ 65 ∧ c.toNat ≤ 90
  · rw [if_pos h]
    have hv : (c.toNat + 32).isValidChar := Or.inl (by omega)
    have ht : (Char.ofNat (c.toNat + 32)).toNat = c.toNat + 32 := by
      rw [Char.ofNat, dif_pos hv]
      rfl
    rw [if_neg (by omega)]
  · rw [if_neg h, if_neg h]

theorem pyIsSpace_toLower (c : Char) : pyIsSpace c.toLower = pyIsSpace c := by
  unfold Char.toLower
  by_cases h : c.toNat ≥ 65 ∧ c.toNat ≤ 90
  · rw [if_pos h]
    have hv : (c.toNat + 32).isValidChar := Or.inl (by omega)
    have ht : (Char.ofNat (c.toNat + 32)).toNat = c.toNat + 32 := by
      rw [Char.ofNat, dif_pos hv]
      rfl
    simp only [pyIsSpace, ht, decide_eq_decide]
    omega
  · rw [if_neg h]

theorem head?_stripList (l : List Char) (a : Char) (h : (stripList l).head? = some a) :
    pyIsSpace a = false := by
  unfold stripList at h
  rw [List.head?_reverse] at h
  have hsplit := List.takeWhile_append_dropWhile (p := pyIsSpace)
    (l := (l.dropWhile pyIsSpace).reverse)
  have hlast : (l.dropWhile pyIsSpace).reverse.getLast? = some a := by
    rw [← hsplit, List.getLast?_append, h]
    rfl
  rw [List.getLast?_reverse] at hlast
  have hnot := List.head?_dropWhile_not pyIsSpace l
  rw [hlast] at hnot
  exact hnot

theorem getLast?_stripList (l : List Char) (a : Char) (h : (stripList l).getLast? = some a) :
    pyIsSpace a = false := by
  unfold stripList at h
  rw [List.getLast?_reverse] at h
  have hnot := List.head?_dropWhile_not pyIsSpace (l.dropWhile pyIsSpace).reverse
  rw [h] at hnot
  exact hnot

theorem dropWhile_eq_self_of_head {p : Char → Bool} {l : List Char}
    (h : ∀ a, l.head? = some a → p a = false) : l.dropWhile p = l := by
  cases l with
  | nil => rfl
  | cons x xs => exact List.dropWhile_cons_of_neg (by simp [h x rfl])

theorem stripList_eq_self {l : List Char}
    (h1 : ∀ a, l.head? = some a → pyIsSpace a = false)
    (h2 : ∀ a, l.getLast? = some a → pyIsSpace a = false) : stripList l = l := by
  unfold stripList
  rw [dropWhile_eq_self_of_head h1]
  rw [dropWhile_eq_self_of_head (by intro a ha; exact h2 a (by rwa [List.head?_reverse] at ha))]
  exact List.reverse_reverse l

theorem stripList_stripList (l : List Char) : stripList (stripList l) = stripList l :=
  stripList_eq_self (head?_stripList l) (getLast?_stripList l)

theorem stripList_map_toLower (l : List Char) :
    stripList (l.map Char.toLower) = (stripList l).map Char.toLower := by
  have hp : (pyIsSpace ∘ Char.toLower) = pyIsSpace := funext pyIsSpace_toLower
  unfold stripList
  rw [List.dropWhile_map, hp, ← List.map_reverse, List.dropWhile_map, hp, ← List.map_reverse]

theorem pyStrip_pyStrip (s : String) : pyStrip (pyStrip s) = pyStrip s := by
  show String.mk (stripList (stripList s.data)) = String.mk (stripList s.data)
  rw [stripList_stripList]

theorem pyStrip_pyLower (s : String) : pyStrip (pyLower s) = pyLower (pyStrip s) := by
  show String.mk (stripList (s.data.map Char.toLower))
      = String.mk ((stripList s.data).map Char.toLower)
  rw [stripList_map_toLower]

theorem pyLower_pyLower (s : String) : pyLower (pyLower s) = pyLower s := by
  show String.mk ((s.data.map Char.toLower).map Char.toLower) = String.mk (s.data.map Char.toLower)
  rw [List.map_map]
  have : (Char.toLower ∘ Char.toLower) = Char.toLower := funext toLower_toLower
  rw [this]

theorem pyNorm_pyNorm (s : String) : pyNorm (pyNorm s) = pyNorm s := by
  unfold pyNorm
  rw [pyStrip_pyLower, pyStrip_pyStrip, pyLower_pyLower]

theorem pyNorm_eq_empty_of_strip (s : String) (h : pyStrip s = "") : pyNorm s = "" := by
  unfold pyNorm
  rw [h]
  rfl

/-! Auxiliary facts about the store operations. -/

theorem lookup_updateItem (inv : Store) (key : String) (it : InventoryItem) (k : String) :
    (updateItem inv key it).lookup k =
      if k = key then (inv.lookup k).map fun _ => it else inv.lookup k := by
  induction inv with
  | nil => simp [updateItem]
  | cons kv t ih =>
    obtain ⟨a, b⟩ := kv
    simp only [updateItem, List.map_cons] at ih ⊢
    by_cases h1 : a = key
    · subst h1
      by_cases h2 : k = a
      · subst h2
        simp [List.lookup_cons]
      · have hba : (k == a) = false := beq_eq_false_iff_ne.mpr h2
        simp [List.lookup_cons, h2, hba, ih]
    · by_cases h2 : k = a
      · subst h2
        simp [List.lookup_cons, if_neg h1, h1]
      · have hba : (k == a) = false := beq_eq_false_iff_ne.mpr h2
        simp [List.lookup_cons, if_neg h1, hba, h2, ih]

theorem lookup_mem {inv : Store} {k : String} {it : InventoryItem}
    (h : inv.lookup k = some it) : (k, it) ∈ inv := by
  rcases List.lookup_eq_some_iff.mp h with ⟨l₁, l₂, rfl, -⟩
  simp

theorem get_or_create_snd (inv : Store) (s : String) :
    (_get_or_create_item inv s).2 = itemView inv (pyNorm s) := by
  unfold _get_or_create_item itemView
  cases h : inv.lookup (pyNorm s) <;> simp [h]

theorem get_or_create_lookup (inv : Store) (s : String) :
    (_get_or_create_item inv s).1.lookup (pyNorm s) = some (itemView inv (pyNorm s)) := by
  unfold _get_or_create_item itemView
  cases h : inv.lookup (pyNorm s) with
  | some it => simp [h]
  | none => simp [h, List.lookup_append]

theorem get_or_create_lookup_self (inv : Store) (k : String) (hk : pyNorm k = k) :
    (_get_or_create_item inv k).1.lookup k = some (itemView inv k) := by
  have h := get_or_create_lookup inv k
  rwa [hk] at h

theorem get_or_create_fst_of_some {inv : Store} {s : String} {it : InventoryItem}
    (h : inv.lookup (pyNorm s) = some it) : (_get_or_create_item inv s).1 = inv := by
  simp [_get_or_create_item, h]

theorem get_or_create_fst_of_none {inv : Store} {s : String}
    (h : inv.lookup (pyNorm s) = none) :
    (_get_or_create_item inv s).1 = inv ++ [(pyNorm s, freshItem)] := by
  simp [_get_or_create_item, h, freshItem]

theorem itemView_get_or_create (inv : Store) (s : String) (k : String) :
    itemView (_get_or_create_item inv s).1 k = itemView inv k := by
  unfold _get_or_create_item itemView
  cases h : inv.lookup (pyNorm s) with
  | some it => simp [h]
  | none =>
    simp only [h]
    rw [List.lookup_append]
    by_cases hk : k = pyNorm s
    · subst hk
      rw [h]
      simp [List.lookup_cons]
    · have hnone : List.lookup k [(pyNorm s, ({ } : InventoryItem))] = none := by
        have hba : (k == pyNorm s) = false := beq_eq_false_iff_ne.mpr hk
        simp [List.lookup_cons, hba]
      rw [hnone, Option.or_none]

theorem mem_get_or_create_fst {inv : Store} {s : String} {kv : String × InventoryItem}
    (h : kv ∈ (_get_or_create_item inv s).1) : kv ∈ inv ∨ kv = (pyNorm s, freshItem) := by
  simp only [_get_or_create_item] at h
  cases hl : inv.lookup (pyNorm s) with
  | some it =>
    rw [hl] at h
    exact Or.inl h
  | none =>
    rw [hl] at h
    simp only [List.mem_append, List.mem_singleton] at h
    rcases h with h | h
    · exact Or.inl h
    · exact Or.inr (by rw [h]; rfl)

/-! Branch shapes of `register_move`. -/

theorem register_move_key_empty (inv : Store) (p : MovePayload) (hk : pyNorm p.product = "") :
    register_move inv p =
      (inv, .error { status_code := 400, detail := "El producto es obligatorio." }) := by
  simp [register_move, hk]

theorem register_move_purchase_none (inv : Store) (p : MovePayload)
    (hty : p.type = MoveType.purchase) (htc : p.total_cost = none)
    (hk : pyNorm p.product ≠ "") :
    register_move inv p =
      ((_get_or_create_item inv (pyNorm p.product)).1,
        .error { status_code := 422, detail := "El total gastado es obligatorio." }) := by
  simp only [register_move]
  rw [if_neg hk, hty, htc]
  simp

theorem register_move_purchase (inv : Store) (p : MovePayload) (tc : ℚ)
    (hty : p.type = MoveType.purchase) (htc : p.total_cost = some tc)
    (hk : pyNorm p.product ≠ "") :
    register_move inv p =
      (updateItem (_get_or_create_item inv (pyNorm p.product)).1 (pyNorm p.product)
        (purchasedItem (itemView inv (pyNorm p.product)) p.quantity tc p.min_stock),
       .ok (_to_response (pyStrip p.product)
        (purchasedItem (itemView inv (pyNorm p.product)) p.quantity tc p.min_stock))) := by
  simp only [register_move]
  rw [if_neg hk, hty, htc]
  simp only [if_pos rfl, get_or_create_snd, pyNorm_pyNorm]
  set old := itemView inv (pyNorm p.product) with hold
  by_cases hz : old.quantity + p.quantity = 0
  · rw [if_pos hz]
    cases hms : p.min_stock with
    | none => simp [purchasedItem, hz, hms]
    | some m => simp [purchasedItem, hz, hms]
  · rw [if_neg hz]
    cases hms : p.min_stock with
    | none => simp [purchasedItem, hz, hms]
    | some m => simp [purchasedItem, hz, hms]

theorem register_move_sale_fail (inv : Store) (p : MovePayload)
    (hty : p.type = MoveType.sale) (hk : pyNorm p.product ≠ "")
    (hq : (itemView inv (pyNorm p.product)).quantity < p.quantity) :
    register_move inv p =
      ((_get_or_create_item inv (pyNorm p.product)).1,
        .error { status_code := 400,
                 detail := "No hay suficiente stock para completar la venta." }) := by
  simp only [register_move]
  rw [if_neg hk, hty]
  simp only [get_or_create_snd, pyNorm_pyNorm]
  rw [if_neg (by simp), if_pos hq]

theorem register_move_sale_ok (inv : Store) (p : MovePayload)
    (hty : p.type = MoveType.sale) (hk : pyNorm p.product ≠ "")
    (hq : ¬(itemView inv (pyNorm p.product)).quantity < p.quantity) :
    register_move inv p =
      (updateItem (_get_or_create_item inv (pyNorm p.product)).1 (pyNorm p.product)
        (soldItem (itemView inv (pyNorm p.product)) p.quantity),
       .ok (_to_response (pyStrip p.product)
        (soldItem (itemView inv (pyNorm p.product)) p.quantity))) := by
  simp only [register_move]
  rw [if_neg hk, hty]
  simp only [get_or_create_snd, pyNorm_pyNorm]
  rw [if_neg (by simp), if_neg hq]
  rfl

/-! Effect of `register_move` on the per-key item view, and on membership. -/

theorem itemView_register_move_purchase (inv : Store) (p : MovePayload) (tc : ℚ)
    (hty : p.type = MoveType.purchase) (htc : p.total_cost = some tc)
    (hk : pyNorm p.product ≠ "") (k : String) :
    itemView (register_move inv p).1 k =
      if k = pyNorm p.product then
        purchasedItem (itemView inv (pyNorm p.product)) p.quantity tc p.min_stock
      else itemView inv k := by
  rw [register_move_purchase inv p tc hty htc hk]
  unfold itemView
  rw [lookup_updateItem]
  by_cases hkk : k = pyNorm p.product
  · subst hkk
    rw [if_pos rfl, if_pos rfl,
      get_or_create_lookup_self inv (pyNorm p.product) (pyNorm_pyNorm p.product)]
    rfl
  · rw [if_neg hkk, if_neg hkk]
    exact itemView_get_or_create inv (pyNorm p.product) k

theorem itemView_register_move_sale_ok (inv : Store) (p : MovePayload)
    (hty : p.type = MoveType.sale) (hk : pyNorm p.product ≠ "")
    (hq : ¬(itemView inv (pyNorm p.product)).quantity < p.quantity) (k : String) :
    itemView (register_move inv p).1 k =
      if k = pyNorm p.product then soldItem (itemView inv (pyNorm p.product)) p.quantity
      else itemView inv k := by
  rw [register_move_sale_ok inv p hty hk hq]
  unfold itemView
  rw [lookup_updateItem]
  by_cases hkk : k = pyNorm p.product
  · subst hkk
    rw [if_pos rfl, if_pos rfl,
      get_or_create_lookup_self inv (pyNorm p.product) (pyNorm_pyNorm p.product)]
    rfl
  · rw [if_neg hkk, if_neg hkk]
    exact itemView_get_or_create inv (pyNorm p.product) k

theorem mem_updateItem {inv : Store} {key : String} {it : InventoryItem}
    {kv : String × InventoryItem} (h : kv ∈ updateItem inv key it) :
    kv.2 = it ∨ kv ∈ inv := by
  simp only [updateItem, List.mem_map] at h
  rcases h with ⟨kv0, hmem, hkv⟩
  by_cases hk : kv0.1 = key
  · rw [if_pos hk] at hkv
    exact Or.inl (by rw [← hkv])
  · rw [if_neg hk] at hkv
    exact Or.inr (hkv ▸ hmem)

theorem nonneg_register_move (inv : Store) (p : MovePayload) (hq : 0 < p.quantity)
    (hin : ∀ kv ∈ inv, 0 ≤ kv.2.quantity) :
    ∀ kv ∈ (register_move inv p).1, 0 ≤ kv.2.quantity := by
  intro kv hkv
  by_cases hk : pyNorm p.product = ""
  · rw [register_move_key_empty inv p hk] at hkv
    exact hin kv hkv
  · have hview : 0 ≤ (itemView inv (pyNorm p.product)).quantity := by
      unfold itemView
      cases hl : inv.lookup (pyNorm p.product) with
      | some it => simpa using hin _ (lookup_mem hl)
      | none => simp
    cases hty : p.type with
    | purchase =>
      cases htc : p.total_cost with
      | none =>
        rw [register_move_purchase_none inv p hty htc hk] at hkv
        rcases mem_get_or_create_fst hkv with h | h
        · exact hin kv h
        · rw [h]
          simp [freshItem]
      | some tc =>
        rw [register_move_purchase inv p tc hty htc hk] at hkv
        rcases mem_updateItem hkv with h | h
        · rw [h]
          simp only [purchasedItem]
          omega
        · rcases mem_get_or_create_fst h with h2 | h2
          · exact hin kv h2
          · rw [h2]
            simp [freshItem]
    | sale =>
      by_cases hs : (itemView inv (pyNorm p.product)).quantity < p.quantity
      · rw [register_move_sale_fail inv p hty hk hs] at hkv
        rcases mem_get_or_create_fst hkv with h | h
        · exact hin kv h
        · rw [h]
          simp [freshItem]
      · rw [register_move_sale_ok inv p hty hk hs] at hkv
        rcases mem_updateItem hkv with h | h
        · rw [h]
          simp only [soldItem]
          omega
        · rcases mem_get_or_create_fst h with h2 | h2
          · exact hin kv h2
          · rw [h2]
            simp [freshItem]

theorem nonneg_applyMoves (ms : List MovePayload) :
    ∀ inv : Store, (∀ m ∈ ms, 0 < m.quantity) → (∀ kv ∈ inv, 0 ≤ kv.2.quantity) →
      ∀ kv ∈ applyMoves inv ms, 0 ≤ kv.2.quantity := by
  induction ms with
  | nil =>
    intro inv _ hin kv hkv
    exact hin kv hkv
  | cons m t ih =>
    intro inv hms hin kv hkv
    exact ih (register_move inv m).1 (fun x hx => hms x (List.mem_cons_of_mem _ hx))
      (nonneg_register_move inv m (hms m (List.mem_cons_self m t)) hin) kv hkv

/-! Projections of the payload builders. -/

@[simp] theorem purchasePayload_type (s : String) (q : Int) (c : ℚ) :
    (purchasePayload s q c).type = MoveType.purchase := rfl

@[simp] theorem purchasePayload_product (s : String) (q : Int) (c : ℚ) :
    (purchasePayload s q c).product = s := rfl

@[simp] theorem purchasePayload_quantity (s : String) (q : Int) (c : ℚ) :
    (purchasePayload s q c).quantity = q := rfl

@[simp] theorem purchasePayload_total_cost (s : String) (q : Int) (c : ℚ) :
    (purchasePayload s q c).total_cost = some c := rfl

@[simp] theorem purchasePayload_min_stock (s : String) (q : Int) (c : ℚ) :
    (purchasePayload s q c).min_stock = none := rfl

@[simp] theorem salePayload_type (s : String) (q : Int) :
    (salePayload s q).type = MoveType.sale := rfl

@[simp] theorem salePayload_product (s : String) (q : Int) :
    (salePayload s q).product = s := rfl

@[simp] theorem salePayload_quantity (s : String) (q : Int) :
    (salePayload s q).quantity = q := rfl

/-! Claim theorems. -/

/-- C2: `status` is a pure function of `(quantity, min_stock)` evaluated in
order: `min_stock ≤ 0` gives OK; else `quantity ≤ 0` gives "Bajo"; else
`quantity ≤ min_stock` gives "Atento"; else OK — together with the four
example points `(5,0) ↦ OK`, `(0,3) ↦ Bajo`, `(3,5) ↦ Atento`,
`(10,5) ↦ OK`. -/
theorem claim_C2_status_rule (it : InventoryItem) :
    (it.min_stock ≤ 0 → it.status = "OK") ∧
    (0 < it.min_stock → it.quantity ≤ 0 → it.status = "Bajo") ∧
    (0 < it.min_stock → 0 < it.quantity → it.quantity ≤ it.min_stock →
      it.status = "Atento") ∧
    (0 < it.min_stock → it.min_stock < it.quantity → it.status = "OK") ∧
    ({ quantity := 5, unit_cost := 0, min_stock := 0 } : InventoryItem).status = "OK" ∧
    ({ quantity := 0, unit_cost := 0, min_stock := 3 } : InventoryItem).status = "Bajo" ∧
    ({ quantity := 3, unit_cost := 0, min_stock := 5 } : InventoryItem).status = "Atento" ∧
    ({ quantity := 10, unit_cost := 0, min_stock := 5 } : InventoryItem).status = "OK" := by
  refine ⟨fun h => ?_, fun h1 h2 => ?_, fun h1 h2 h3 => ?_, fun h1 h4 => ?_,
    by decide, by decide, by decide, by decide⟩
  · rw [InventoryItem.status, if_pos h]
  · rw [InventoryItem.status, if_neg (by omega), if_pos h2]
  · rw [InventoryItem.status, if_neg (by omega), if_neg (by omega), if_pos h3]
  · rw [InventoryItem.status, if_neg (by omega), if_neg (by omega), if_neg (by omega)]

theorem claim_C2_status_rule_witness :
    ({ quantity := 3, unit_cost := 0, min_stock := 5 } : InventoryItem).status = "Atento" :=
  (claim_C2_status_rule { quantity := 3, unit_cost := 0, min_stock := 5 }).2.2.1
    (by decide) (by decide) (by decide)

/-- C3: a sale asking for more than the item's current quantity is rejected
with a 400 insufficient-stock error, and the store — hence the item's
`quantity`, `unit_cost` and `min_stock` — is exactly as before the move. -/
theorem claim_C3_oversold_sale_rejected (inv : Store) (p : MovePayload)
    (item : InventoryItem) (hty : p.type = MoveType.sale)
    (hk : pyNorm p.product ≠ "")
    (hlk : inv.lookup (pyNorm p.product) = some item)
    (hq : item.quantity < p.quantity) :
    register_move inv p =
      (inv,
        Except.error { status_code := 400, detail := "No hay suficiente stock para completar la venta." }) := by
  have hview : itemView inv (pyNorm p.product) = item := by
    unfold itemView
    rw [hlk]
    rfl
  rw [register_move_sale_fail inv p hty hk (by rw [hview]; exact hq)]
  have hlk' : inv.lookup (pyNorm (pyNorm p.product)) = some item := by
    rwa [pyNorm_pyNorm]
  rw [get_or_create_fst_of_some hlk']

theorem claim_C3_oversold_sale_rejected_witness :
    register_move [("apple", { quantity := 2, unit_cost := 2, min_stock := 3 })]
        (salePayload "apple" 5) =
      ([("apple", { quantity := 2, unit_cost := 2, min_stock := 3 })],
        Except.error { status_code := 400, detail := "No hay suficiente stock para completar la venta." }) :=
  claim_C3_oversold_sale_rejected _ _ { quantity := 2, unit_cost := 2, min_stock := 3 }
    rfl (by decide) (by decide) (by decide)

/-- C4: a sale asking for at most the item's current quantity succeeds with
an `ok` response, the item's quantity drops by exactly that amount, and its
`unit_cost` and `min_stock` are unchanged (other keys are untouched). -/
theorem claim_C4_sale_success (inv : Store) (p : MovePayload)
    (hty : p.type = MoveType.sale) (hk : pyNorm p.product ≠ "")
    (hq : p.quantity ≤ (itemView inv (pyNorm p.product)).quantity) :
    (register_move inv p).2 = Except.ok (_to_response (pyStrip p.product)
      { quantity := (itemView inv (pyNorm p.product)).quantity - p.quantity
        unit_cost := (itemView inv (pyNorm p.product)).unit_cost
        min_stock := (itemView inv (pyNorm p.product)).min_stock }) ∧
    itemView (register_move inv p).1 (pyNorm p.product) =
      { quantity := (itemView inv (pyNorm p.product)).quantity - p.quantity
        unit_cost := (itemView inv (pyNorm p.product)).unit_cost
        min_stock := (itemView inv (pyNorm p.product)).min_stock } ∧
    (∀ k, k ≠ pyNorm p.product →
      itemView (register_move inv p).1 k = itemView inv k) := by
  have hnot : ¬(itemView inv (pyNorm p.product)).quantity < p.quantity := not_lt.mpr hq
  refine ⟨?_, ?_, ?_⟩
  · rw [register_move_sale_ok inv p hty hk hnot]
    rfl
  · rw [itemView_register_move_sale_ok inv p hty hk hnot, if_pos rfl]
    rfl
  · intro k hkk
    rw [itemView_register_move_sale_ok inv p hty hk hnot, if_neg hkk]

theorem claim_C4_sale_success_witness :
    (register_move [("apple", { quantity := 10, unit_cost := 2, min_stock := 3 })]
        (salePayload "apple" 8)).2 =
      Except.ok { product := "apple", quantity := 2, unit_cost := round2 2, min_stock := 3,
                  status := "Atento" } := by
  have h := (claim_C4_sale_success
    [("apple", { quantity := 10, unit_cost := 2, min_stock := 3 })]
    (salePayload "apple" 8) rfl (by decide) (by decide)).1
  rw [h]
  rfl

/-- C6: a move whose product name is empty or whitespace-only after trimming
is rejected with a 400 bad-request error before any state is touched. -/
theorem claim_C6_blank_product_rejected (inv : Store) (p : MovePayload)
    (h : pyStrip p.product = "") :
    register_move inv p =
      (inv, Except.error { status_code := 400, detail := "El producto es obligatorio." }) :=
  register_move_key_empty inv p (pyNorm_eq_empty_of_strip p.product h)

theorem claim_C6_blank_product_rejected_witness :
    register_move [] (salePayload "   " 1) =
      ([], Except.error { status_code := 400, detail := "El producto es obligatorio." }) :=
  claim_C6_blank_product_rejected [] (salePayload "   " 1) (by decide)

/-- C7 (counterexample): a purchase with no `total_cost` on a fresh product
key does mutate state — the store gains a zeroed item before the check. -/
theorem claim_C7_counterexample :
    (register_move [] { type := MoveType.purchase, product := "x", quantity := 1 }).1 ≠
      ([] : Store) := by decide

/-- C7 (amended): a purchase with no `total_cost` is rejected with a 422
error saying the total cost is required; no key's effective item fields
change, and the store is exactly the result of the get-or-create step that
precedes the check — unchanged whenever the normalized key already exists,
extended with a zeroed item when it does not. -/
theorem claim_C7_missing_total_cost (inv : Store) (p : MovePayload)
    (hty : p.type = MoveType.purchase) (htc : p.total_cost = none)
    (hk : pyNorm p.product ≠ "") :
    (register_move inv p).2 =
      Except.error { status_code := 422, detail := "El total gastado es obligatorio." } ∧
    (∀ k, itemView (register_move inv p).1 k = itemView inv k) ∧
    (register_move inv p).1 = (_get_or_create_item inv (pyNorm p.product)).1 ∧
    (inv.lookup (pyNorm p.product) ≠ none → (register_move inv p).1 = inv) := by
  rw [register_move_purchase_none inv p hty htc hk]
  refine ⟨rfl, fun k => itemView_get_or_create inv (pyNorm p.product) k, rfl, fun hmem => ?_⟩
  cases hl : inv.lookup (pyNorm (pyNorm p.product)) with
  | some it => exact get_or_create_fst_of_some hl
  | none =>
    rw [pyNorm_pyNorm] at hl
    exact absurd hl hmem

theorem claim_C7_missing_total_cost_witness :
    (register_move [("x", { quantity := 1, unit_cost := 1, min_stock := 0 })]
        { type := MoveType.purchase, product := "x", quantity := 2 }).2 =
      Except.error { status_code := 422, detail := "El total gastado es obligatorio." } ∧
    (register_move [("x", { quantity := 1, unit_cost := 1, min_stock := 0 })]
        { type := MoveType.purchase, product := "x", quantity := 2 }).1 =
      [("x", { quantity := 1, unit_cost := 1, min_stock := 0 })] :=
  ⟨(claim_C7_missing_total_cost
      [("x", { quantity := 1, unit_cost := 1, min_stock := 0 })]
      { type := MoveType.purchase, product := "x", quantity := 2 } rfl rfl (by decide)).1,
   (claim_C7_missing_total_cost
      [("x", { quantity := 1, unit_cost := 1, min_stock := 0 })]
      { type := MoveType.purchase, product := "x", quantity := 2 } rfl rfl
        (by decide)).2.2.2 (by decide)⟩

/-- C9: when a move on a product key not yet in the store is rejected by a
business-rule check — a purchase missing `total_cost`, or a sale on a
product with no stock — the store still gains a zeroed item under that key
(creation precedes the checks), and that item then shows up in the listing
with quantity 0, unit cost 0, minimum stock 0 and status OK. -/
theorem claim_C9_ghost_item_created (inv : Store) (p : MovePayload)
    (hk : pyNorm p.product ≠ "")
    (hfresh : inv.lookup (pyNorm p.product) = none)
    (hrej : (p.type = MoveType.purchase ∧ p.total_cost = none) ∨
            (p.type = MoveType.sale ∧ 0 < p.quantity)) :
    (∃ e : HTTPError, (register_move inv p).2 = Except.error e) ∧
    (register_move inv p).1 = inv ++ [(pyNorm p.product, freshItem)] ∧
    _to_response (pyTitle (pyNorm p.product)) freshItem ∈
      get_inventory (register_move inv p).1 ∧
    freshItem.quantity = 0 ∧ freshItem.unit_cost = 0 ∧ freshItem.min_stock = 0 ∧
    freshItem.status = "OK" := by
  have hfresh' : inv.lookup (pyNorm (pyNorm p.product)) = none := by
    rwa [pyNorm_pyNorm]
  have hlt : (p.type = MoveType.sale ∧ 0 < p.quantity) →
      (itemView inv (pyNorm p.product)).quantity < p.quantity := by
    intro hq
    have hview : itemView inv (pyNorm p.product) = freshItem := by
      unfold itemView
      rw [hfresh]
      rfl
    rw [hview]
    exact hq.2
  have hst : (register_move inv p).1 = inv ++ [(pyNorm p.product, freshItem)] := by
    rcases hrej with ⟨hty, htc⟩ | hq
    · rw [register_move_purchase_none inv p hty htc hk]
      rw [get_or_create_fst_of_none hfresh']
      rw [pyNorm_pyNorm]
    · rw [register_move_sale_fail inv p hq.1 hk (hlt hq)]
      rw [get_or_create_fst_of_none hfresh']
      rw [pyNorm_pyNorm]
  have herr : ∃ e : HTTPError, (register_move inv p).2 = Except.error e := by
    rcases hrej with ⟨hty, htc⟩ | hq
    · rw [register_move_purchase_none inv p hty htc hk]
      exact ⟨_, rfl⟩
    · rw [register_move_sale_fail inv p hq.1 hk (hlt hq)]
      exact ⟨_, rfl⟩
  refine ⟨herr, hst, ?_, rfl, rfl, rfl, rfl⟩
  rw [hst]
  have hmem : (pyNorm p.product, freshItem) ∈ inv ++ [(pyNorm p.product, freshItem)] := by
    simp
  have hms : (pyNorm p.product, freshItem) ∈
      (inv ++ [(pyNorm p.product, freshItem)]).mergeSort (fun a b => decide (a.1 ≤ b.1)) :=
    List.mem_mergeSort.mpr hmem
  exact List.mem_map_of_mem _ hms

theorem claim_C9_ghost_item_created_witness :
    (∃ e : HTTPError, (register_move [] (salePayload "b" 1)).2 = Except.error e) ∧
    (register_move [] (salePayload "b" 1)).1 = [] ++ [(pyNorm (salePayload "b" 1).product, freshItem)] ∧
    _to_response (pyTitle (pyNorm (salePayload "b" 1).product)) freshItem ∈
      get_inventory (register_move [] (salePayload "b" 1)).1 ∧
    freshItem.quantity = 0 ∧ freshItem.unit_cost = 0 ∧ freshItem.min_stock = 0 ∧
    freshItem.status = "OK" :=
  claim_C9_ghost_item_created [] (salePayload "b" 1) (by decide) rfl
    (Or.inr ⟨rfl, by decide⟩)

/-- C5: starting from the empty store, under moves whose quantities are all
positive every stored item's quantity stays nonnegative after every prefix
of the sequence; moreover a purchase increases the item's quantity by its
own quantity, and an oversold sale leaves every item view unchanged. -/
theorem claim_C5_quantity_never_negative (ms : List MovePayload)
    (hms : ∀ m ∈ ms, 0 < m.quantity) :
    (∀ n : Nat, ∀ kv ∈ applyMoves reset_inventory (ms.take n), 0 ≤ kv.2.quantity) ∧
    (∀ (inv : Store) (p : MovePayload) (tc : ℚ), p.type = MoveType.purchase →
      p.total_cost = some tc → pyNorm p.product ≠ "" →
      (itemView (register_move inv p).1 (pyNorm p.product)).quantity =
        (itemView inv (pyNorm p.product)).quantity + p.quantity) ∧
    (∀ (inv : Store) (p : MovePayload), p.type = MoveType.sale →
      pyNorm p.product ≠ "" →
      (itemView inv (pyNorm p.product)).quantity < p.quantity →
      ∀ k, itemView (register_move inv p).1 k = itemView inv k) := by
  refine ⟨?_, ?_, ?_⟩
  · intro n
    exact nonneg_applyMoves (ms.take n) reset_inventory
      (fun m hm => hms m (List.mem_of_mem_take hm))
      (by intro kv h; simp [reset_inventory] at h)
  · intro inv p tc hty htc hk
    rw [itemView_register_move_purchase inv p tc hty htc hk, if_pos rfl]
    rfl
  · intro inv p hty hk hq k
    rw [register_move_sale_fail inv p hty hk hq]
    exact itemView_get_or_create inv (pyNorm p.product) k

theorem claim_C5_quantity_never_negative_witness :
    0 ≤ (("a", freshItem) : String × InventoryItem).2.quantity :=
  (claim_C5_quantity_never_negative [salePayload "a" 1] (by decide)).1 1
    ("a", freshItem) (by decide)

/-- C10: the stored `unit_cost` is never rounded — a purchase folds the
previous stored (full-precision) `unit_cost` into the weighted average, and
the two-decimal rounding appears only in the response view built from the
stored value. -/
theorem claim_C10_rounding_only_in_view (inv : Store) (p : MovePayload) (tc : ℚ)
    (hty : p.type = MoveType.purchase) (htc : p.total_cost = some tc)
    (hk : pyNorm p.product ≠ "") :
    (itemView (register_move inv p).1 (pyNorm p.product)).unit_cost =
      (if (itemView inv (pyNorm p.product)).quantity + p.quantity = 0 then
        tc / (p.quantity : ℚ)
       else (((itemView inv (pyNorm p.product)).quantity : ℚ) *
              (itemView inv (pyNorm p.product)).unit_cost +
             (p.quantity : ℚ) * (tc / (p.quantity : ℚ))) /
            ((((itemView inv (pyNorm p.product)).quantity + p.quantity : Int)) : ℚ)) ∧
    (∀ r, (register_move inv p).2 = Except.ok r →
      r.unit_cost =
        round2 ((itemView (register_move inv p).1 (pyNorm p.product)).unit_cost)) := by
  have hv := itemView_register_move_purchase inv p tc hty htc hk (pyNorm p.product)
  rw [if_pos rfl] at hv
  constructor
  · rw [hv]
    rfl
  · intro r hr
    rw [register_move_purchase inv p tc hty htc hk] at hr
    have hr' : _to_response (pyStrip p.product)
        (purchasedItem (itemView inv (pyNorm p.product)) p.quantity tc p.min_stock) = r := by
      exact (Except.ok.injEq _ _).mp hr
    rw [← hr', hv]
    rfl

theorem claim_C10_rounding_only_in_view_witness :
    (itemView (register_move [("a", { quantity := 3, unit_cost := 1/3, min_stock := 0 })]
        (purchasePayload "a" 3 1)).1 "a").unit_cost = 1/3 ∧
    round2 (1/3) = 33/100 ∧ ((33 : ℚ)/100) ≠ 1/3 := by
  refine ⟨?_, ?_, by norm_num⟩
  · have h := (claim_C10_rounding_only_in_view
      [("a", { quantity := 3, unit_cost := 1/3, min_stock := 0 })]
      (purchasePayload "a" 3 1) 1 rfl rfl (by decide)).1
    have hview : itemView [("a", { quantity := 3, unit_cost := 1/3, min_stock := 0 })]
        (pyNorm (purchasePayload "a" 3 1).product) =
        { quantity := 3, unit_cost := 1/3, min_stock := 0 } := rfl
    rw [hview] at h
    have hkey : pyNorm (purchasePayload "a" 3 1).product = "a" := rfl
    rw [hkey] at h
    rw [h]
    norm_num
  · show ((if (1 : ℚ)/3 * 100 - (⌊(1 : ℚ)/3 * 100⌋ : ℚ) < 1/2 then ⌊(1 : ℚ)/3 * 100⌋
      else if 1/2 < (1 : ℚ)/3 * 100 - (⌊(1 : ℚ)/3 * 100⌋ : ℚ) then ⌊(1 : ℚ)/3 * 100⌋ + 1
      else if ⌊(1 : ℚ)/3 * 100⌋ % 2 = 0 then ⌊(1 : ℚ)/3 * 100⌋
      else ⌊(1 : ℚ)/3 * 100⌋ + 1 : Int) : ℚ) / 100 = 33/100
    norm_num

/-- C8: the listing returns one entry per stored key, ordered by strictly
ascending normalized key, each rendered from the stored item by the same
`_to_response` view as the move endpoint, with the product name shown as
the title-casing of the stored key. -/
theorem claim_C8_listing_sorted (inv : Store) (hnd : (inv.map Prod.fst).Nodup) :
    ∃ l : Store,
      l.Perm inv ∧
      l.Pairwise (fun a b => a.1 < b.1) ∧
      get_inventory inv = l.map (fun kv => _to_response (pyTitle kv.1) kv.2) ∧
      (get_inventory inv).length = inv.length := by
  refine ⟨inv.mergeSort (fun a b => decide (a.1 ≤ b.1)),
    List.mergeSort_perm inv _, ?_, rfl, ?_⟩
  · have htrans : ∀ a b c : String × InventoryItem,
        (fun a b : String × InventoryItem => decide (a.1 ≤ b.1)) a b →
        (fun a b : String × InventoryItem => decide (a.1 ≤ b.1)) b c →
        (fun a b : String × InventoryItem => decide (a.1 ≤ b.1)) a c := by
      intro a b c h1 h2
      simp only [decide_eq_true_eq] at h1 h2 ⊢
      exact le_trans h1 h2
    have htotal : ∀ a b : String × InventoryItem,
        ((fun a b : String × InventoryItem => decide (a.1 ≤ b.1)) a b ||
         (fun a b : String × InventoryItem => decide (a.1 ≤ b.1)) b a) := by
      intro a b
      simp only [Bool.or_eq_true, decide_eq_true_eq]
      exact le_total a.1 b.1
    have hsorted := List.sorted_mergeSort htrans htotal inv
    have hle : (inv.mergeSort (fun a b => decide (a.1 ≤ b.1))).Pairwise
        (fun a b : String × InventoryItem => a.1 ≤ b.1) :=
      hsorted.imp (fun h => by simpa using h)
    have hnd' : ((inv.mergeSort (fun a b => decide (a.1 ≤ b.1))).map Prod.fst).Nodup :=
      (((List.mergeSort_perm inv _).map Prod.fst).nodup_iff).mpr hnd
    have hne : (inv.mergeSort (fun a b => decide (a.1 ≤ b.1))).Pairwise
        (fun a b : String × InventoryItem => a.1 ≠ b.1) :=
      List.pairwise_map.mp hnd'
    exact (hle.and hne).imp (fun h => lt_of_le_of_ne h.1 h.2)
  · simp [get_inventory]

theorem claim_C8_listing_sorted_witness :
    ∃ l : Store,
      l.Perm [("b", { quantity := 1, unit_cost := 2, min_stock := 3 }), ("a", freshItem)] ∧
      l.Pairwise (fun a b => a.1 < b.1) ∧
      get_inventory [("b", { quantity := 1, unit_cost := 2, min_stock := 3 }), ("a", freshItem)] =
        l.map (fun kv => _to_response (pyTitle kv.1) kv.2) ∧
      (get_inventory [("b", { quantity := 1, unit_cost := 2, min_stock := 3 }),
        ("a", freshItem)]).length =
        ([("b", { quantity := 1, unit_cost := 2, min_stock := 3 }), ("a", freshItem)] : Store).length :=
  claim_C8_listing_sorted _ (by decide)

/-! Weighted-average bookkeeping for purchase sequences. -/

theorem applyMoves_append (inv : Store) (l1 l2 : List MovePayload) :
    applyMoves inv (l1 ++ l2) = applyMoves (applyMoves inv l1) l2 := by
  simp [applyMoves, List.foldl_append]

theorem purchasesRunningState (product : String) (hp : pyNorm product ≠ "")
    (ps : List (Int × ℚ)) (hq : ∀ x ∈ ps, 0 < x.1) :
    ∀ n : Nat, n ≤ ps.length →
      ((itemView (applyMoves reset_inventory
          ((ps.take n).map fun x => purchasePayload product x.1 x.2))
            (pyNorm product)).quantity
        = ((ps.take n).map fun x => x.1).sum) ∧
      (0 < n →
        (itemView (applyMoves reset_inventory
            ((ps.take n).map fun x => purchasePayload product x.1 x.2))
              (pyNorm product)).unit_cost
          = ((ps.take n).map fun x => (x.1 : ℚ) * (x.2 / (x.1 : ℚ))).sum /
              ((((ps.take n).map fun x => x.1).sum : Int) : ℚ)) := by
  intro n
  induction n with
  | zero =>
    intro _
    exact ⟨rfl, fun h0 => absurd h0 (by omega)⟩
  | succ n ih =>
    intro hle
    have hlt : n < ps.length := by omega
    obtain ⟨hqty, huc⟩ := ih (by omega)
    have hxmem : ps[n] ∈ ps := List.getElem_mem hlt
    have hqx : 0 < ps[n].1 := hq ps[n] hxmem
    have htake : ps.take (n + 1) = ps.take n ++ [ps[n]] := by
      rw [List.take_succ, List.getElem?_eq_getElem hlt]
      rfl
    have happ : applyMoves reset_inventory
        ((ps.take (n + 1)).map fun x => purchasePayload product x.1 x.2)
        = (register_move (applyMoves reset_inventory
            ((ps.take n).map fun y => purchasePayload product y.1 y.2))
            (purchasePayload product ps[n].1 ps[n].2)).1 := by
      rw [htake, List.map_append, applyMoves_append]
      rfl
    have hview := itemView_register_move_purchase
      (applyMoves reset_inventory ((ps.take n).map fun y => purchasePayload product y.1 y.2))
      (purchasePayload product ps[n].1 ps[n].2) ps[n].2 rfl rfl
      (by simpa using hp) (pyNorm product)
    simp only [purchasePayload_product, purchasePayload_quantity,
      purchasePayload_min_stock] at hview
    rw [if_pos trivial] at hview
    rw [happ, hview]
    have hqn : (0 : Int) ≤ ((ps.take n).map fun y => y.1).sum := by
      apply List.sum_nonneg
      intro a ha
      obtain ⟨y, hy, rfl⟩ := List.mem_map.mp ha
      exact le_of_lt (hq y (List.mem_of_mem_take hy))
    have hsum1 : ((ps.take (n + 1)).map fun x => x.1).sum
        = ((ps.take n).map fun x => x.1).sum + ps[n].1 := by
      rw [htake, List.map_append, List.sum_append]
      simp
    have hsum2 : ((ps.take (n + 1)).map fun x => (x.1 : ℚ) * (x.2 / (x.1 : ℚ))).sum
        = ((ps.take n).map fun x => (x.1 : ℚ) * (x.2 / (x.1 : ℚ))).sum
          + (ps[n].1 : ℚ) * (ps[n].2 / (ps[n].1 : ℚ)) := by
      rw [htake, List.map_append, List.sum_append]
      simp
    constructor
    · simp only [purchasedItem]
      rw [hqty, hsum1]
    · intro _
      simp only [purchasedItem]
      rw [hqty]
      have hnz : ¬(((ps.take n).map fun y => y.1).sum + ps[n].1 = 0) := by omega
      rw [if_neg hnz]
      by_cases hn0 : n = 0
      · subst hn0
        have huc0 : (itemView (applyMoves reset_inventory
            ((ps.take 0).map fun y => purchasePayload product y.1 y.2))
              (pyNorm product)).unit_cost = 0 := rfl
        rw [huc0, hsum1, hsum2]
        simp
      · have hpos : 0 < ((ps.take n).map fun y => y.1).sum := by
          apply List.sum_pos
          · intro a ha
            obtain ⟨y, hy, rfl⟩ := List.mem_map.mp ha
            exact hq y (List.mem_of_mem_take hy)
          · intro hnil
            rw [List.map_eq_nil_iff] at hnil
            have hlen : (ps.take n).length = n := by
              rw [List.length_take]
              omega
            rw [hnil] at hlen
            exact hn0 (by simpa using hlen.symm)
        have hQne : ((((ps.take n).map fun y => y.1).sum : Int) : ℚ) ≠ 0 := by
          exact_mod_cast ne_of_gt hpos
        rw [huc (by omega)]
        rw [mul_comm, div_mul_cancel₀ _ hQne]
        rw [hsum1, hsum2]

/-- C1: applying a sequence of purchases to a fresh item, after each purchase
the stored `unit_cost` equals the running weighted average
`(Σ quantityᵢ * (total_costᵢ / quantityᵢ)) / (Σ quantityᵢ)` and the stored
quantity equals `Σ quantityᵢ`; each step computes the new cost as
`(item.quantity * item.unit_cost + quantity * (total_cost / quantity)) /
(item.quantity + quantity)`, with the degenerate total-units-zero branch
assigning the purchase's own unit cost. -/
theorem claim_C1_running_average (product : String) (hp : pyNorm product ≠ "")
    (ps : List (Int × ℚ)) (hq : ∀ x ∈ ps, 0 < x.1) (n : Nat) (hn : 0 < n)
    (hle : n ≤ ps.length) :
    ((itemView (applyMoves reset_inventory
        ((ps.take n).map fun x => purchasePayload product x.1 x.2))
          (pyNorm product)).unit_cost
      = ((ps.take n).map fun x => (x.1 : ℚ) * (x.2 / (x.1 : ℚ))).sum /
          ((((ps.take n).map fun x => x.1).sum : Int) : ℚ)) ∧
    ((itemView (applyMoves reset_inventory
        ((ps.take n).map fun x => purchasePayload product x.1 x.2))
          (pyNorm product)).quantity
      = ((ps.take n).map fun x => x.1).sum) ∧
    (∀ (inv : Store) (q : Int) (c : ℚ), 0 < q →
      (itemView (register_move inv (purchasePayload product q c)).1
          (pyNorm product)).unit_cost =
        (if (itemView inv (pyNorm product)).quantity + q = 0 then c / (q : ℚ)
         else (((itemView inv (pyNorm product)).quantity : ℚ) *
                (itemView inv (pyNorm product)).unit_cost +
               (q : ℚ) * (c / (q : ℚ))) /
              ((((itemView inv (pyNorm product)).quantity + q : Int)) : ℚ))) := by
  obtain ⟨hqty, huc⟩ := purchasesRunningState product hp ps hq n hle
  refine ⟨huc hn, hqty, ?_⟩
  intro inv q c _
  have h := itemView_register_move_purchase inv (purchasePayload product q c) c rfl rfl
    (by simpa using hp) (pyNorm product)
  simp only [purchasePayload_product, purchasePayload_quantity,
    purchasePayload_min_stock] at h
  rw [if_pos trivial] at h
  rw [h]
  rfl

theorem claim_C1_running_average_witness :
    (itemView (applyMoves reset_inventory
        (([((4 : Int), (8 : ℚ))].take 1).map fun x => purchasePayload "apple" x.1 x.2))
          (pyNorm "apple")).unit_cost =
      (([((4 : Int), (8 : ℚ))].take 1).map fun x => (x.1 : ℚ) * (x.2 / (x.1 : ℚ))).sum /
        (((([((4 : Int), (8 : ℚ))].take 1).map fun x => x.1).sum : Int) : ℚ) :=
  (claim_C1_running_average "apple" (by decide) [((4 : Int), (8 : ℚ))] (by decide) 1
    (by decide) (by decide)).1

/-! The store keeps at most one entry per key: the Nodup hypothesis of the
listing theorem is an invariant of every reachable store. -/

theorem map_fst_updateItem (inv : Store) (key : String) (it : InventoryItem) :
    (updateItem inv key it).map Prod.fst = inv.map Prod.fst := by
  simp only [updateItem, List.map_map]
  apply List.map_congr_left
  intro kv _
  by_cases h : kv.1 = key <;> simp [h]

theorem nodup_keys_register_move (inv : Store) (p : MovePayload)
    (h : (inv.map Prod.fst).Nodup) :
    ((register_move inv p).1.map Prod.fst).Nodup := by
  have hslot : ∀ s : String, (((_get_or_create_item inv s).1).map Prod.fst).Nodup := by
    intro s
    simp only [_get_or_create_item]
    cases hl : inv.lookup (pyNorm s) with
    | some it => simpa using h
    | none =>
      simp only [List.map_append, List.map_cons, List.map_nil]
      rw [List.nodup_append]
      refine ⟨h, List.nodup_singleton _, ?_⟩
      intro a ha hb
      rw [List.lookup_eq_none_iff] at hl
      obtain ⟨kv, hkv, rfl⟩ := List.mem_map.mp ha
      have := hl kv hkv
      simp only [List.mem_singleton] at hb
      simp [hb] at this
  by_cases hk : pyNorm p.product = ""
  · rw [register_move_key_empty inv p hk]
    exact h
  · cases hty : p.type with
    | purchase =>
      cases htc : p.total_cost with
      | none =>
        rw [register_move_purchase_none inv p hty htc hk]
        exact hslot _
      | some tc =>
        rw [register_move_purchase inv p tc hty htc hk, map_fst_updateItem]
        exact hslot _
    | sale =>
      by_cases hs : (itemView inv (pyNorm p.product)).quantity < p.quantity
      · rw [register_move_sale_fail inv p hty hk hs]
        exact hslot _
      · rw [register_move_sale_ok inv p hty hk hs, map_fst_updateItem]
        exact hslot _

theorem nodup_keys_applyMoves (ms : List MovePayload) :
    ∀ inv : Store, (inv.map Prod.fst).Nodup →
      ((applyMoves inv ms).map Prod.fst).Nodup := by
  induction ms with
  | nil => intro inv h; exact h
  | cons m t ih =>
    intro inv h
    exact ih (register_move inv m).1 (nodup_keys_register_move inv m h)
